import Mathlib

set_option linter.unusedVariables false

/-! Shallow embedding of the foundry-entropy build tracker core
(main.ts together with the shared types in types.ts): the data model,
the persistent store accessor, the config extractor, the build
reconciler, the check recorder and the run orchestrator.

Modelling conventions:
* Timestamps are natural numbers (epoch instants); the ISO-8601
  rendering used by the program is an order-preserving presentation of
  the same instants and is not modelled.  `new Date().toISOString()`
  and `Date.now()` evaluated inside one expression are modelled as a
  single clock reading.
* Dynamic JavaScript values produced by `JSON.parse` are modelled by
  the inductive type `Json`; `JSON.parse` itself and
  `decodeURIComponent` are external library routines and enter the
  model as oracle parameters of the run environment `Env`.
* `writeFile` is modelled by collecting the documents passed to
  `writeData`, in order; `readFile` by a fixed per-run file-system
  state (no write in the program ever precedes a later read of the
  same file within one run, so a fixed state is exact). -/

/-- A parsed JSON value: a dynamic JavaScript value as produced by
`JSON.parse`.  Object fields are listed in insertion order and, as for
every object produced by `JSON.parse` or by an object literal, have
pairwise distinct keys. -/
inductive Json where
  | null
  | bool (b : Bool)
  | num (n : Int)
  | str (s : String)
  | arr (elems : List Json)
  | obj (fields : List (String × Json))

/-- First binding of a key in an object's field list (field lists of
parsed objects have distinct keys, so first = only). -/
def lookupField : List (String × Json) → String → Option Json
  | [], _ => none
  | (k0, v) :: rest, k => if k0 = k then some v else lookupField rest k

/-- Property access `j.k`: `some` value for an object carrying the
key, `none` (JavaScript `undefined`) otherwise. -/
def Json.getMember : Json → String → Option Json
  | .obj fields, k => lookupField fields k
  | _, _ => none

/-- JavaScript truthiness of a parsed value. -/
def Json.truthy : Json → Bool
  | .null => false
  | .bool b => b
  | .num n => n != 0
  | .str s => s != ""
  | .arr _ => true
  | .obj _ => true

/-- Truthiness of a possibly-undefined value (`none` = `undefined`). -/
def truthyOpt : Option Json → Bool
  | none => false
  | some j => j.truthy

/-- JavaScript strict equality `===` on defined values: value equality
between primitives of the same type, `false` across types.  On objects
and arrays `===` is reference equality; every comparison the program
performs compares a freshly parsed value against a previously stored
one, so those cases are `false`. -/
def jsStrictEq : Json → Json → Bool
  | .null, .null => true
  | .bool a, .bool b => a == b
  | .num a, .num b => a == b
  | .str a, .str b => a == b
  | _, _ => false

/-- `===` extended to possibly-undefined operands. -/
def jsStrictEqU : Option Json → Option Json → Bool
  | none, none => true
  | some a, some b => jsStrictEq a b
  | _, _ => false

/-- Optional chaining `v?.k`: `undefined` when `v` is `undefined` or
`null`, property access otherwise. -/
def optChainMember : Option Json → String → Option Json
  | none, _ => none
  | some .null, _ => none
  | some j, k => j.getMember k

/-- types.ts `FoundryBuild`.  `foundryEnv` and `rawConfig` are dynamic
values taken from the parsed page payload and are kept verbatim. -/
structure FoundryBuild where
  firstSeenAt : Nat
  lastSeenAt : Nat
  foundryEnv : Json
  rawConfig : Json

/-- types.ts `CheckStatus`. -/
inductive CheckStatus where
  | ok
  | network_error
  | http_error
  | parse_error
  | missing_build_info
  | unknown_error
deriving DecidableEq

/-- types.ts `Check`.  Optional fields are `none` when the program
leaves them undefined.  `buildNumber` holds the dynamic value
destructured from the parsed config (typed as a string in types.ts,
but the runtime value is whatever the payload carried). -/
structure Check where
  checkedAt : Nat
  status : CheckStatus
  durationMs : Int
  httpStatus : Option Nat
  errorMessage : Option String
  buildNumber : Option Json
  isNewBuild : Option Bool

/-- types.ts `Data`: the persisted history document. -/
structure Data where
  lastUpdatedAt : Nat
  builds : List FoundryBuild
  checks : List Check

/-- main.ts line 6: retention cap, one week of hourly checks. -/
def MAX_CHECKS : Nat := 168

/-- main.ts `addCheckToData` (lines 62-68): unshift the check, trim to
`MAX_CHECKS` when the cap is exceeded, stamp `lastUpdatedAt`. -/
def addCheckToData (data : Data) (check : Check) : Data :=
  let checks1 := check :: data.checks
  let checks2 := if checks1.length > MAX_CHECKS then checks1.take MAX_CHECKS else checks1
  { data with checks := checks2, lastUpdatedAt := check.checkedAt }

/-- The fresh document built by `readData` when the file is absent
(main.ts lines 28-32). -/
def freshData (now : Nat) : Data :=
  { lastUpdatedAt := now, builds := [], checks := [] }

/-- Result of the `readFile` call: file content, or a file-system
error carrying its `code` property and message. -/
inductive FSResult where
  | content (s : String)
  | fsError (code : String) (msg : String)

/-- main.ts lines 13-17: `typeof data === "object" && data != null &&
Array.isArray(data.builds)`.  Arrays and `null` have `typeof`
"object", but an array has no `builds` property, so only an object
whose `builds` field is an array passes. -/
def validShape : Json → Bool
  | .obj fields =>
      match lookupField fields "builds" with
      | some (.arr _) => true
      | _ => false
  | _ => false

/-- Persisted status strings back to `CheckStatus`.  The source casts
without validation; an unrecognised string is mapped to
`unknown_error` here (no claim exercises such a value). -/
def statusOfString : String → CheckStatus
  | "ok" => .ok
  | "network_error" => .network_error
  | "http_error" => .http_error
  | "parse_error" => .parse_error
  | "missing_build_info" => .missing_build_info
  | _ => .unknown_error

/-- Timestamp field of a stored record as a model instant (the model
stores instants as numbers; garbage defaults to 0, matching the
source's unchecked `as Data` cast being garbage-tolerant). -/
def asNat : Option Json → Nat
  | some (.num n) => n.toNat
  | _ => 0

/-- The unchecked `as Data` cast, build element. -/
def castBuild (j : Json) : FoundryBuild :=
  { firstSeenAt := asNat (j.getMember "firstSeenAt")
    lastSeenAt := asNat (j.getMember "lastSeenAt")
    foundryEnv := (j.getMember "foundryEnv").getD Json.null
    rawConfig := (j.getMember "rawConfig").getD Json.null }

/-- The unchecked `as Data` cast, check element. -/
def castCheck (j : Json) : Check :=
  { checkedAt := asNat (j.getMember "checkedAt")
    status :=
      match j.getMember "status" with
      | some (.str s) => statusOfString s
      | _ => .unknown_error
    durationMs :=
      match j.getMember "durationMs" with
      | some (.num n) => n
      | _ => 0
    httpStatus :=
      match j.getMember "httpStatus" with
      | some (.num n) => some n.toNat
      | _ => none
    errorMessage :=
      match j.getMember "errorMessage" with
      | some (.str s) => some s
      | _ => none
    buildNumber := j.getMember "buildNumber"
    isNewBuild :=
      match j.getMember "isNewBuild" with
      | some (.bool b) => some b
      | _ => none }

/-- The unchecked `as Data` cast of a shape-valid parsed file,
including the backward-compatibility normalisation of a missing or
non-array `checks` field to `[]` (main.ts lines 18-21). -/
def castData (j : Json) : Data :=
  { lastUpdatedAt := asNat (j.getMember "lastUpdatedAt")
    builds :=
      match j.getMember "builds" with
      | some (.arr xs) => xs.map castBuild
      | _ => []
    checks :=
      match j.getMember "checks" with
      | some (.arr xs) => xs.map castCheck
      | _ => [] }

/-- main.ts `readData` (lines 8-36).  The catch block turns exactly an
error whose `code` property is "ENOENT" into a fresh document; a
`JSON.parse` error and the "invalid data structure" error carry no
`code` property and are rethrown, as is any other file-system
error. -/
def readData (fs : FSResult) (jsonParse : String → Except String Json) (now : Nat) :
    Except String Data :=
  match fs with
  | .fsError code msg =>
      if code = "ENOENT" then .ok (freshData now) else .error msg
  | .content s =>
      match jsonParse s with
      | .error e => .error e
      | .ok j =>
          if validShape j then .ok (castData j)
          else .error "invalid data structure in data.json"

/-- The characters of the literal part of the marker regex's opening
tag, main.ts line 45. -/
def openTagChars : List Char :=
  String.data "<script id=\"ai-foundry-host-context\""

/-- The characters of the literal closing tag of the marker regex. -/
def closeTagChars : List Char := String.data "</script>"

/-- The regex piece after the literal opening text: skip the
attribute characters matched by the character class excluding the
closing angle bracket, then consume that bracket; fails when the
bracket never appears. -/
def dropUntilGt : List Char → Option (List Char)
  | [] => none
  | c :: rest => if c = '>' then some rest else dropUntilGt rest

/-- The lazily captured group: the characters before the first
occurrence of the closing tag; fails when the closing tag is
absent. -/
def takeUntilClose : List Char → Option (List Char)
  | [] => none
  | c :: rest =>
      if closeTagChars.isPrefixOf (c :: rest) then some []
      else
        match takeUntilClose rest with
        | some content => some (c :: content)
        | none => none

/-- Leftmost match of the marker regex of main.ts line 45: at each
start position try the opening tag, then the capture up to the
closing tag; on failure resume at the next position. -/
def regexFindMarker : List Char → Option (List Char)
  | [] => none
  | c :: rest =>
      match
        (if openTagChars.isPrefixOf (c :: rest) then
          dropUntilGt ((c :: rest).drop openTagChars.length)
        else none)
      with
      | some afterOpen =>
          match takeUntilClose afterOpen with
          | some content => some content
          | none => regexFindMarker rest
      | none => regexFindMarker rest

/-- `html.match(regex)`'s captured group, main.ts lines 44-46. -/
def markerContent (html : String) : Option String :=
  (regexFindMarker html.data).map fun cs => String.mk cs

/-- The `fetch` response as the orchestrator consumes it: `ok` flag,
numeric status, status text and body text. -/
structure FetchResponse where
  ok : Bool
  status : Nat
  statusText : String
  body : String

/-- Per-run environment: the file-system state seen by `readData`,
the `JSON.parse` and `decodeURIComponent` library oracles, and the
result of the single `fetch` call (a response, or a thrown transport
error's message). -/
structure Env where
  fs : FSResult
  jsonParse : String → Except String Json
  decodeURIComponent : String → Except String String
  fetchResult : Except String FetchResponse

/-- Clock readings of one run, in program order: `startTime` (line
71), the reading inside `readData`'s fresh-document branch, the `now`
of line 139, the reading of the one `createCheck` call that fires,
the reading in the top-level catch handler, and the one inside the
handler's re-read of the store. -/
structure Times where
  tStart : Nat
  tLoad : Nat
  tNow : Nat
  tCheck : Nat
  tCatch : Nat
  tLoad2 : Nat

/-- main.ts `createCheck` (lines 74-82): stamps the current instant,
the elapsed duration since `startTime`, and the extra fields the call
site supplies (`none` = field left undefined). -/
def createCheck (tStart tCheck : Nat) (status : CheckStatus)
    (httpStatus : Option Nat) (errorMessage : Option String)
    (buildNumber : Option Json) (isNewBuild : Option Bool) : Check :=
  { checkedAt := tCheck
    status := status
    durationMs := (tCheck : Int) - (tStart : Int)
    httpStatus := httpStatus
    errorMessage := errorMessage
    buildNumber := buildNumber
    isNewBuild := isNewBuild }

/-- `config.environment` as used at main.ts line 140.  The source
destructures it directly; the guard at line 128 has already ensured
it is an object there, so the `Json.null` default is never the value
actually used on that path. -/
def envOf (config : Json) : Json :=
  (config.getMember "environment").getD Json.null

/-- The `buildNumber` destructured at main.ts line 140 (possibly
`undefined` in general; defined and truthy whenever the line-128
guard has passed). -/
def observedBuildNumber (config : Json) : Option Json :=
  (envOf config).getMember "buildNumber"

/-- Field list after removing a key: the rest element
`...foundryEnv` of the destructuring at main.ts line 140.  A parsed
object's keys are distinct, so removing every binding of the key
equals removing the single one. -/
def removeKeyFields : List (String × Json) → String → List (String × Json)
  | [], _ => []
  | (k0, v) :: rest, k =>
      if k0 = k then removeKeyFields rest k else (k0, v) :: removeKeyFields rest k

/-- The rest element of object destructuring, as a field list; a
non-object never reaches this operation on the guarded path. -/
def restWithout (j : Json) (k : String) : List (String × Json) :=
  match j with
  | .obj fields => removeKeyFields fields k
  | _ => []

/-- Object-literal update `{...fields, k: v}`: overwrite the key in
place when present, append it otherwise. -/
def setKey : List (String × Json) → String → Json → List (String × Json)
  | [], k, v => [(k, v)]
  | (k0, v0) :: rest, k, v =>
      if k0 = k then (k0, v) :: rest else (k0, v0) :: setKey rest k v

/-- The indexed assignment `data.builds[i].lastSeenAt = now` of
main.ts line 150. -/
def setLastSeenAt : List FoundryBuild → Nat → Nat → List FoundryBuild
  | [], _, _ => []
  | b :: rest, 0, now => { b with lastSeenAt := now } :: rest
  | b :: rest, i + 1, now => b :: setLastSeenAt rest i now

/-- `Array.prototype.findIndex` of main.ts line 142: index of the
first element satisfying the predicate (`none` models the -1 result). -/
def findIndexJS (p : FoundryBuild → Bool) : List FoundryBuild → Option Nat
  | [] => none
  | b :: rest => if p b then some 0 else (findIndexJS p rest).map (· + 1)

/-- main.ts lines 139-163, the build reconciliation block: find the
stored build whose `foundryEnv.buildNumber` is strictly equal to the
observed one; when found, bump only its `lastSeenAt`; otherwise
prepend a new record whose environment is the destructured rest
spread back together with the identifier, and whose `rawConfig` is
the config verbatim.  Returns the new list and `isNewBuild`. -/
def reconcileBuilds (builds : List FoundryBuild) (config : Json) (now : Nat) :
    List FoundryBuild × Bool :=
  let buildNumber := observedBuildNumber config
  let foundryEnv := restWithout (envOf config) "buildNumber"
  match findIndexJS
      (fun build => jsStrictEqU (build.foundryEnv.getMember "buildNumber") buildNumber)
      builds with
  | some existingBuildIndex => (setLastSeenAt builds existingBuildIndex now, false)
  | none =>
      let newBuild : FoundryBuild :=
        { firstSeenAt := now
          lastSeenAt := now
          foundryEnv := Json.obj (setKey foundryEnv "buildNumber" (buildNumber.getD Json.null))
          rawConfig := config }
      (newBuild :: builds, true)

/-- How `main` itself ends: a `process.exit` call (or the implicit
successful exit when the function returns), or an exception escaping
to the top-level catch. -/
inductive MainEnd where
  | exited (code : Nat)
  | threw (msg : String)

/-- The config extraction, main.ts `extractFoundryConfig` (lines
43-60): no marker match gives `undefined`; on a match the trimmed
capture is percent-decoded OUTSIDE the try block, so a decode
exception escapes the function, while only a `JSON.parse` failure is
caught and turned into `undefined`. -/
def extractFoundryConfig (env : Env) (html : String) : Except String (Option Json) :=
  match markerContent html with
  | some content =>
      match env.decodeURIComponent content.trim with
      | .error e => .error e
      | .ok decoded =>
          match env.jsonParse decoded with
          | .ok config => .ok (some config)
          | .error _ => .ok none
  | none => .ok none

/-- main.ts `main` (lines 70-174): load the store, fetch, extract,
reconcile, and on every branch record one check and write the store
once before exiting; exceptions from the load and from the extractor
escape with no write.  Returns the documents written, in order, and
how `main` ended. -/
def mainBody (env : Env) (ts : Times) : List Data × MainEnd :=
  match readData env.fs env.jsonParse ts.tLoad with
  | .error e => ([], .threw e)
  | .ok data =>
    match env.fetchResult with
    | .error e =>
        let check := createCheck ts.tStart ts.tCheck .network_error none (some e) none none
        ([addCheckToData data check], .exited 1)
    | .ok res =>
      if res.ok = false then
        let check := createCheck ts.tStart ts.tCheck .http_error (some res.status)
          (some (toString res.status ++ " " ++ res.statusText)) none none
        ([addCheckToData data check], .exited 1)
      else
        match extractFoundryConfig env res.body with
        | .error e => ([], .threw e)
        | .ok configOpt =>
          if truthyOpt configOpt = false then
            let check := createCheck ts.tStart ts.tCheck .parse_error (some res.status)
              (some "failed to extract config from HTML") none none
            ([addCheckToData data check], .exited 1)
          else
            let config := configOpt.getD Json.null
            if truthyOpt (optChainMember (config.getMember "environment") "buildNumber")
                = false then
              let check := createCheck ts.tStart ts.tCheck .missing_build_info
                (some res.status) (some "fonfig found but no buildNumber present") none none
              ([addCheckToData data check], .exited 1)
            else
              let r := reconcileBuilds data.builds config ts.tNow
              let data2 := { data with builds := r.1 }
              let check := createCheck ts.tStart ts.tCheck .ok (some res.status) none
                (observedBuildNumber config) (some r.2)
              ([addCheckToData data2 check], .exited 0)

/-- main.ts lines 176-194, the whole process: run `main`; when it
throws, re-load the store, record an `unknown_error` check with a
literal `durationMs` of 0, and write — swallowing any error of this
best-effort attempt — then exit 1.  Returns the documents written
and the process exit code. -/
def fullRun (env : Env) (ts : Times) : List Data × Nat :=
  match mainBody env ts with
  | (writes, .exited code) => (writes, code)
  | (writes, .threw e) =>
      match readData env.fs env.jsonParse ts.tLoad2 with
      | .ok data =>
          let check : Check :=
            { checkedAt := ts.tCatch
              status := .unknown_error
              durationMs := 0
              httpStatus := none
              errorMessage := some e
              buildNumber := none
              isNewBuild := none }
          (writes ++ [addCheckToData data check], 1)
      | .error _ => (writes, 1)

/-- Status of the newest check of the first written document of a
run, when a document was written at all. -/
def headStatus (r : List Data × Nat) : Option CheckStatus :=
  r.1.head?.bind fun d => d.checks.head?.map Check.status

/-! ### Helper lemmas -/

lemma addCheckToData_checks (d : Data) (c : Check) :
    (addCheckToData d c).checks = (c :: d.checks).take MAX_CHECKS := by
  unfold addCheckToData
  by_cases h : (c :: d.checks).length > MAX_CHECKS
  · simp [h]
  · simp only [h, if_false]
    exact (List.take_of_length_le (Nat.le_of_not_lt h)).symm

lemma addCheckToData_head (d : Data) (c : Check) :
    (addCheckToData d c).checks.head? = some c := by
  rw [addCheckToData_checks]
  show ((c :: d.checks).take (167 + 1)).head? = some c
  rw [List.take_succ_cons]
  rfl

lemma addCheckToData_lastUpdatedAt (d : Data) (c : Check) :
    (addCheckToData d c).lastUpdatedAt = c.checkedAt := rfl

lemma headStatus_single (d : Data) (c : Check) (n : Nat) :
    headStatus ([addCheckToData d c], n) = some c.status := by
  simp [headStatus, addCheckToData_head]

/-! ### C6: the check recorder -/

/-- Claim C6: recording a check prepends it as the newest entry, stamps
the document's `lastUpdatedAt` with the check's `checkedAt`, truncates
to exactly 168 entries from the tail when the cap is exceeded, and
never lets a compliant document grow past 168 checks. -/
theorem c6_check_recorder (d : Data) (c : Check) :
    (addCheckToData d c).checks = (c :: d.checks).take MAX_CHECKS ∧
    (addCheckToData d c).checks.head? = some c ∧
    (addCheckToData d c).lastUpdatedAt = c.checkedAt ∧
    ((c :: d.checks).length > MAX_CHECKS →
      (addCheckToData d c).checks.length = MAX_CHECKS) ∧
    (d.checks.length ≤ MAX_CHECKS → (addCheckToData d c).checks.length ≤ MAX_CHECKS) := by
  refine ⟨addCheckToData_checks d c, addCheckToData_head d c,
    addCheckToData_lastUpdatedAt d c, ?_, ?_⟩
  · intro h
    rw [addCheckToData_checks, List.length_take]
    exact Nat.min_eq_left (Nat.le_of_lt h)
  · intro h
    rw [addCheckToData_checks, List.length_take]
    exact Nat.min_le_left _ _

/-- A concrete check used to exercise the theorems on sample data. -/
def sampleCheck : Check :=
  { checkedAt := 7, status := .ok, durationMs := 3, httpStatus := none,
    errorMessage := none, buildNumber := none, isNewBuild := none }

/-- Witness for C6 at a concrete document and check. -/
theorem c6_witness :
    (addCheckToData (freshData 0) sampleCheck).checks.head? = some sampleCheck ∧
    (addCheckToData (freshData 0) sampleCheck).checks.length ≤ MAX_CHECKS := by
  have h := c6_check_recorder (freshData 0) sampleCheck
  exact ⟨h.2.1, h.2.2.2.2 (by simp [freshData])⟩

/-! ### C7: loading a missing store -/

/-- Claim C7: loading when the file does not exist (the read fails
with code ENOENT) returns, without an error, a fresh document with
empty builds, empty checks and the load-time stamp; a read failing
with any other code propagates its error. -/
theorem c7_load_missing (jsonParse : String → Except String Json) (now : Nat)
    (msg : String) (code : String) (h : code ≠ "ENOENT") :
    readData (.fsError "ENOENT" msg) jsonParse now = .ok (freshData now) ∧
    (freshData now).builds = [] ∧
    (freshData now).checks = [] ∧
    (freshData now).lastUpdatedAt = now ∧
    readData (.fsError code msg) jsonParse now = .error msg := by
  refine ⟨rfl, rfl, rfl, rfl, ?_⟩
  simp [readData, h]

/-- Witness for C7 at a concrete oracle, instant and error code. -/
theorem c7_witness :
    readData (.fsError "ENOENT" "no such file") (fun _ => .error "unused") 5 =
      .ok (freshData 5) ∧
    readData (.fsError "EACCES" "permission denied") (fun _ => .error "unused") 5 =
      .error "permission denied" := by
  have h := c7_load_missing (fun _ => .error "unused") 5 "no such file" "EACCES"
    (by decide)
  refine ⟨h.1, ?_⟩
  have h2 := c7_load_missing (fun _ => .error "unused") 5 "permission denied" "EACCES"
    (by decide)
  exact h2.2.2.2.2

/-! ### Reconciler helper lemmas -/

lemma setLastSeenAt_length (l : List FoundryBuild) : ∀ (i now : Nat),
    (setLastSeenAt l i now).length = l.length := by
  induction l with
  | nil => intro i now; rfl
  | cons b rest ih =>
    intro i now
    cases i with
    | zero => simp [setLastSeenAt]
    | succ i => simp [setLastSeenAt, ih]

lemma setLastSeenAt_get_ne (l : List FoundryBuild) : ∀ (i j now : Nat), j ≠ i →
    (setLastSeenAt l i now)[j]? = l[j]? := by
  induction l with
  | nil => intro i j now _; rfl
  | cons b rest ih =>
    intro i j now hne
    cases i with
    | zero =>
      cases j with
      | zero => exact absurd rfl hne
      | succ j => simp [setLastSeenAt]
    | succ i =>
      cases j with
      | zero => simp [setLastSeenAt]
      | succ j =>
        simp only [setLastSeenAt, List.getElem?_cons_succ]
        exact ih i j now (fun h => hne (by rw [h]))

lemma setLastSeenAt_get_eq (l : List FoundryBuild) : ∀ (i now : Nat) (b : FoundryBuild),
    l[i]? = some b → (setLastSeenAt l i now)[i]? = some { b with lastSeenAt := now } := by
  induction l with
  | nil => intro i now b h; simp at h
  | cons x rest ih =>
    intro i now b h
    cases i with
    | zero =>
      simp only [List.getElem?_cons_zero, Option.some_inj] at h
      subst h
      simp [setLastSeenAt]
    | succ i =>
      simp only [List.getElem?_cons_succ] at h
      simp only [setLastSeenAt, List.getElem?_cons_succ]
      exact ih i now b h

lemma findIndexJS_none (p : FoundryBuild → Bool) (l : List FoundryBuild)
    (h : findIndexJS p l = none) : ∀ x ∈ l, p x = false := by
  induction l with
  | nil => intro x hx; simp at hx
  | cons b rest ih =>
    intro x hx
    unfold findIndexJS at h
    by_cases hp : p b
    · simp [hp] at h
    · simp [hp] at h
      rcases List.mem_cons.mp hx with rfl | hx'
      · exact Bool.eq_false_iff.mpr hp
      · exact ih h x hx'

lemma findIndexJS_some (p : FoundryBuild → Bool) (l : List FoundryBuild) : ∀ i,
    findIndexJS p l = some i → ∃ b, l[i]? = some b ∧ p b = true := by
  induction l with
  | nil => intro i h; simp [findIndexJS] at h
  | cons b rest ih =>
    intro i h
    unfold findIndexJS at h
    by_cases hp : p b
    · simp only [hp, if_true, Option.some_inj] at h
      subst h
      exact ⟨b, by simp, hp⟩
    · simp [hp] at h
      obtain ⟨j, hj, hi⟩ := h
      rcases ih j hj with ⟨x, hx, hpx⟩
      subst hi
      exact ⟨x, by simpa using hx, hpx⟩

lemma lookupField_setKey_self (fs : List (String × Json)) (k : String) (v : Json) :
    lookupField (setKey fs k v) k = some v := by
  induction fs with
  | nil => simp [setKey, lookupField]
  | cons kv rest ih =>
    rcases kv with ⟨k0, v0⟩
    by_cases h : k0 = k
    · simp [setKey, lookupField, h]
    · simp [setKey, lookupField, h, ih]

lemma lookupField_setKey_ne (fs : List (String × Json)) (k : String) (v : Json)
    (k' : String) (h : k' ≠ k) :
    lookupField (setKey fs k v) k' = lookupField fs k' := by
  induction fs with
  | nil =>
    have hk : ¬ k = k' := fun hh => h hh.symm
    simp [setKey, lookupField, hk]
  | cons kv rest ih =>
    rcases kv with ⟨k0, v0⟩
    by_cases h0 : k0 = k
    · subst h0
      have hk : ¬ k0 = k' := fun hh => h hh.symm
      simp [setKey, lookupField, hk]
    · simp only [setKey, h0, if_false]
      by_cases h1 : k0 = k'
      · simp [lookupField, h1]
      · simp [lookupField, h1, ih]

lemma lookupField_removeKey_ne (fs : List (String × Json)) (k k' : String)
    (h : k' ≠ k) :
    lookupField (removeKeyFields fs k) k' = lookupField fs k' := by
  induction fs with
  | nil => rfl
  | cons kv rest ih =>
    rcases kv with ⟨k0, v0⟩
    by_cases h0 : k0 = k
    · subst h0
      have hk : ¬ k0 = k' := fun hh => h hh.symm
      simp [removeKeyFields, lookupField, hk, ih]
    · by_cases h1 : k0 = k'
      · simp [removeKeyFields, lookupField, h0, h1, h]
      · simp [removeKeyFields, lookupField, h0, h1, ih]

/-! ### C4: idempotent re-observation of an existing build -/

/-- Claim C4: when some stored build carries the observed identifier,
reconciliation leaves the list length unchanged, reports the build as
not new, leaves every other record untouched, and rewrites the
matched record to the same record with only `lastSeenAt` replaced (so
its `firstSeenAt`, `foundryEnv` and `rawConfig` are unchanged). -/
theorem c4_idempotent_reobservation (builds : List FoundryBuild) (config : Json)
    (now : Nat) (i : Nat)
    (h : findIndexJS (fun b => jsStrictEqU (b.foundryEnv.getMember "buildNumber")
        (observedBuildNumber config)) builds = some i) :
    (reconcileBuilds builds config now).2 = false ∧
    (reconcileBuilds builds config now).1.length = builds.length ∧
    (∀ j, j ≠ i → (reconcileBuilds builds config now).1[j]? = builds[j]?) ∧
    (∀ b, builds[i]? = some b →
      (reconcileBuilds builds config now).1[i]? = some { b with lastSeenAt := now }) := by
  have hr : reconcileBuilds builds config now = (setLastSeenAt builds i now, false) := by
    simp only [reconcileBuilds, h]
  rw [hr]
  refine ⟨rfl, setLastSeenAt_length builds i now, ?_, ?_⟩
  · intro j hj
    exact setLastSeenAt_get_ne builds i j now hj
  · intro b hb
    exact setLastSeenAt_get_eq builds i now b hb

/-- A stored build carrying identifier "B-1". -/
def sampleBuild : FoundryBuild :=
  { firstSeenAt := 1, lastSeenAt := 2,
    foundryEnv := Json.obj [("buildNumber", Json.str "B-1")],
    rawConfig := Json.null }

/-- A stored build carrying identifier "B-0". -/
def sampleBuildOld : FoundryBuild :=
  { firstSeenAt := 1, lastSeenAt := 2,
    foundryEnv := Json.obj [("buildNumber", Json.str "B-0")],
    rawConfig := Json.null }

/-- A parsed config observing identifier "B-1" in region eastus2. -/
def sampleConfig : Json :=
  Json.obj [("environment",
    Json.obj [("region", Json.str "eastus2"), ("buildNumber", Json.str "B-1")])]

/-- Witness for C4 at a concrete document and config. -/
theorem c4_witness :
    (reconcileBuilds [sampleBuild] sampleConfig 9).2 = false ∧
    (reconcileBuilds [sampleBuild] sampleConfig 9).1[0]? =
      some { sampleBuild with lastSeenAt := 9 } := by
  have h := c4_idempotent_reobservation [sampleBuild] sampleConfig 9 0 (by rfl)
  exact ⟨h.1, h.2.2.2 sampleBuild rfl⟩

/-! ### C5: prepending a new build -/

/-- Claim C5: when no stored build carries the observed identifier,
reconciliation reports a new build and prepends exactly one record —
it becomes the head, the previous records follow unchanged in order —
whose `firstSeenAt` and `lastSeenAt` both equal the current instant,
whose `rawConfig` is the extracted config verbatim, and whose
environment holds the identifier under its own key and agrees with
`config.environment` on every other key. -/
theorem c5_new_build_prepend (builds : List FoundryBuild) (config : Json) (now : Nat)
    (bnv : Json)
    (hfind : findIndexJS (fun b => jsStrictEqU (b.foundryEnv.getMember "buildNumber")
        (observedBuildNumber config)) builds = none)
    (hbn : observedBuildNumber config = some bnv) :
    (reconcileBuilds builds config now).2 = true ∧
    ∃ nb, (reconcileBuilds builds config now).1 = nb :: builds ∧
      nb.firstSeenAt = now ∧ nb.lastSeenAt = now ∧ nb.rawConfig = config ∧
      nb.foundryEnv.getMember "buildNumber" = some bnv ∧
      (∀ k, k ≠ "buildNumber" → nb.foundryEnv.getMember k = (envOf config).getMember k) := by
  have hr : reconcileBuilds builds config now =
      ({ firstSeenAt := now, lastSeenAt := now,
         foundryEnv := Json.obj (setKey (restWithout (envOf config) "buildNumber")
           "buildNumber" ((observedBuildNumber config).getD Json.null)),
         rawConfig := config } :: builds, true) := by
    simp only [reconcileBuilds, hfind]
  rw [hr]
  refine ⟨rfl, _, rfl, rfl, rfl, rfl, ?_, ?_⟩
  · show lookupField (setKey (restWithout (envOf config) "buildNumber") "buildNumber"
      ((observedBuildNumber config).getD Json.null)) "buildNumber" = some bnv
    rw [lookupField_setKey_self, hbn]
    rfl
  · intro k hk
    show lookupField (setKey (restWithout (envOf config) "buildNumber") "buildNumber"
      ((observedBuildNumber config).getD Json.null)) k = (envOf config).getMember k
    rw [lookupField_setKey_ne _ _ _ _ hk]
    have hobj : ∃ fields, envOf config = Json.obj fields := by
      unfold observedBuildNumber at hbn
      cases he : envOf config with
      | obj fields => exact ⟨fields, rfl⟩
      | null => rw [he] at hbn; simp [Json.getMember] at hbn
      | bool b => rw [he] at hbn; simp [Json.getMember] at hbn
      | num n => rw [he] at hbn; simp [Json.getMember] at hbn
      | str s => rw [he] at hbn; simp [Json.getMember] at hbn
      | arr xs => rw [he] at hbn; simp [Json.getMember] at hbn
    rcases hobj with ⟨fields, hf⟩
    rw [hf]
    show lookupField (removeKeyFields fields "buildNumber") k = lookupField fields k
    exact lookupField_removeKey_ne fields "buildNumber" k hk

/-- Witness for C5 at a concrete document and config. -/
theorem c5_witness :
    (reconcileBuilds [sampleBuildOld] sampleConfig 9).2 = true ∧
    (reconcileBuilds [sampleBuildOld] sampleConfig 9).1.tail = [sampleBuildOld] ∧
    ((reconcileBuilds [sampleBuildOld] sampleConfig 9).1.head?.map
      FoundryBuild.firstSeenAt) = some 9 ∧
    ((reconcileBuilds [sampleBuildOld] sampleConfig 9).1.head?.map
      FoundryBuild.rawConfig) = some sampleConfig ∧
    ((reconcileBuilds [sampleBuildOld] sampleConfig 9).1.head?.bind
      fun b => b.foundryEnv.getMember "buildNumber") = some (Json.str "B-1") := by
  have h := c5_new_build_prepend [sampleBuildOld] sampleConfig 9 (Json.str "B-1")
    (by rfl) (by rfl)
  obtain ⟨h2, nb, hcons, hfs, hls, hraw, hbn, _⟩ := h
  rw [hcons]
  refine ⟨h2, rfl, ?_, ?_, ?_⟩
  · simp [hfs]
  · simp [hraw]
  · simp [hbn]

/-! ### C8: the build invariant -/

/-- The document-level build invariant of the specification: the
identifiers of any two stored builds differ under the program's own
equality, and creation never postdates the latest observation. -/
def buildInvariant (builds : List FoundryBuild) : Prop :=
  List.Pairwise (fun a b =>
    jsStrictEqU (a.foundryEnv.getMember "buildNumber")
      (b.foundryEnv.getMember "buildNumber") = false) builds ∧
  ∀ b ∈ builds, b.firstSeenAt ≤ b.lastSeenAt

lemma jsStrictEq_symm (a b : Json) : jsStrictEq a b = jsStrictEq b a := by
  cases a <;> cases b <;> simp [jsStrictEq] <;> exact ⟨Eq.symm, Eq.symm⟩

lemma jsStrictEqU_symm (a b : Option Json) : jsStrictEqU a b = jsStrictEqU b a := by
  cases a <;> cases b <;> simp [jsStrictEqU]
  exact jsStrictEq_symm _ _

lemma setLastSeenAt_map_env (l : List FoundryBuild) : ∀ (i now : Nat),
    (setLastSeenAt l i now).map FoundryBuild.foundryEnv = l.map FoundryBuild.foundryEnv := by
  induction l with
  | nil => intro i now; rfl
  | cons b rest ih =>
    intro i now
    cases i with
    | zero => simp [setLastSeenAt]
    | succ i => simp [setLastSeenAt, ih]

lemma mem_setLastSeenAt (l : List FoundryBuild) : ∀ (i now : Nat) (x : FoundryBuild),
    x ∈ setLastSeenAt l i now →
    x ∈ l ∨ ∃ b, l[i]? = some b ∧ x = { b with lastSeenAt := now } := by
  induction l with
  | nil => intro i now x hx; simp [setLastSeenAt] at hx
  | cons b rest ih =>
    intro i now x hx
    cases i with
    | zero =>
      rcases List.mem_cons.mp hx with rfl | hx'
      · exact Or.inr ⟨b, by simp, rfl⟩
      · exact Or.inl (List.mem_cons_of_mem b hx')
    | succ i =>
      rcases List.mem_cons.mp hx with rfl | hx'
      · exact Or.inl (List.mem_cons_self _ _)
      · rcases ih i now x hx' with h | ⟨b0, hb0, hb1⟩
        · exact Or.inl (List.mem_cons_of_mem b h)
        · exact Or.inr ⟨b0, by simpa using hb0, hb1⟩

lemma mem_of_getElemOpt (l : List FoundryBuild) : ∀ (i : Nat) (b : FoundryBuild),
    l[i]? = some b → b ∈ l := by
  induction l with
  | nil => intro i b h; simp at h
  | cons x rest ih =>
    intro i b h
    cases i with
    | zero =>
      simp only [List.getElem?_cons_zero, Option.some_inj] at h
      exact h ▸ List.mem_cons_self _ _
    | succ i =>
      simp only [List.getElem?_cons_succ] at h
      exact List.mem_cons_of_mem x (ih i b h)

/-- Claim C8 (amended): the build invariant is preserved by one
reconciliation step for every config that actually carries an
observed identifier and every current instant not earlier than the
`firstSeenAt` of the record carrying that identifier, if any. -/
theorem c8_invariant_preserved (builds : List FoundryBuild) (config : Json)
    (now : Nat) (bnv : Json)
    (hbn : observedBuildNumber config = some bnv)
    (hinv : buildInvariant builds)
    (hmono : ∀ b ∈ builds,
      jsStrictEqU (b.foundryEnv.getMember "buildNumber")
        (observedBuildNumber config) = true →
      b.firstSeenAt ≤ now) :
    buildInvariant (reconcileBuilds builds config now).1 := by
  rcases hinv with ⟨hpair, htime⟩
  cases hfind : findIndexJS (fun b => jsStrictEqU (b.foundryEnv.getMember "buildNumber")
      (observedBuildNumber config)) builds with
  | none =>
    have hr : (reconcileBuilds builds config now).1 =
        { firstSeenAt := now, lastSeenAt := now,
          foundryEnv := Json.obj (setKey (restWithout (envOf config) "buildNumber")
            "buildNumber" ((observedBuildNumber config).getD Json.null)),
          rawConfig := config } :: builds := by
      simp only [reconcileBuilds, hfind]
    rw [hr]
    constructor
    · constructor
      · intro b hb
        have hid : (Json.obj (setKey (restWithout (envOf config) "buildNumber")
            "buildNumber" ((observedBuildNumber config).getD Json.null))).getMember
            "buildNumber" = some bnv := by
          show lookupField (setKey (restWithout (envOf config) "buildNumber")
            "buildNumber" ((observedBuildNumber config).getD Json.null)) "buildNumber"
            = some bnv
          rw [lookupField_setKey_self, hbn]
          rfl
        have hold := findIndexJS_none _ _ hfind b hb
        rw [hbn] at hold
        show jsStrictEqU _ (b.foundryEnv.getMember "buildNumber") = false
        rw [hid, jsStrictEqU_symm]
        exact hold
      · exact hpair
    · intro b hb
      rcases List.mem_cons.mp hb with rfl | hb'
      · exact Nat.le_refl now
      · exact htime b hb'
  | some i =>
    have hr : (reconcileBuilds builds config now).1 = setLastSeenAt builds i now := by
      simp only [reconcileBuilds, hfind]
    rw [hr]
    constructor
    · have h1 : (builds.map FoundryBuild.foundryEnv).Pairwise
          (fun e1 e2 => jsStrictEqU (e1.getMember "buildNumber")
            (e2.getMember "buildNumber") = false) :=
        List.pairwise_map.mpr hpair
      have h2 : ((setLastSeenAt builds i now).map FoundryBuild.foundryEnv).Pairwise
          (fun e1 e2 => jsStrictEqU (e1.getMember "buildNumber")
            (e2.getMember "buildNumber") = false) := by
        rw [setLastSeenAt_map_env]
        exact h1
      exact List.pairwise_map.mp h2
    · intro b hb
      rcases mem_setLastSeenAt builds i now b hb with h | ⟨b0, hb0, rfl⟩
      · exact htime b h
      · rcases findIndexJS_some _ _ i hfind with ⟨bm, hbm, hpm⟩
        rw [hb0] at hbm
        cases Option.some_inj.mp hbm
        have hmem : b0 ∈ builds := mem_of_getElemOpt builds i b0 hb0
        exact hmono b0 hmem hpm

/-- A stored build first and last seen at instant 5, identifier "B-1". -/
def staleBuild : FoundryBuild :=
  { firstSeenAt := 5, lastSeenAt := 5,
    foundryEnv := Json.obj [("buildNumber", Json.str "B-1")],
    rawConfig := Json.null }

/-- Counterexample to C8 as stated: with an arbitrary current
timestamp the invariant is not preserved — re-observing identifier
"B-1" at instant 3, earlier than the record's `firstSeenAt` of 5,
leaves `firstSeenAt` greater than `lastSeenAt`. -/
theorem c8_counterexample :
    buildInvariant [staleBuild] ∧
    ¬ buildInvariant (reconcileBuilds [staleBuild] sampleConfig 3).1 := by
  constructor
  · constructor
    · exact List.pairwise_singleton _ _
    · intro b hb
      rw [List.mem_singleton.mp hb]
      exact Nat.le_refl 5
  · intro hcon
    have hr : (reconcileBuilds [staleBuild] sampleConfig 3).1 =
        [{ staleBuild with lastSeenAt := 3 }] := by rfl
    rw [hr] at hcon
    have h5 := hcon.2 _ (List.mem_singleton.mpr rfl)
    simp [staleBuild] at h5

/-- Witness for the amended C8 at a concrete document and config. -/
theorem c8_witness : buildInvariant (reconcileBuilds [sampleBuildOld] sampleConfig 9).1 := by
  apply c8_invariant_preserved [sampleBuildOld] sampleConfig 9 (Json.str "B-1") rfl
  · constructor
    · exact List.pairwise_singleton _ _
    · intro b hb
      rw [List.mem_singleton.mp hb]
      exact Nat.le_of_lt (by decide)
  · intro b hb hp
    rw [List.mem_singleton.mp hb] at hp
    exact absurd hp (by decide)

/-! ### Orchestrator helper lemmas -/

lemma readData_ok_again (fs : FSResult) (p : String → Except String Json)
    (t : Nat) (d : Data) (h : readData fs p t = .ok d) (t2 : Nat) :
    ∃ d2, readData fs p t2 = .ok d2 := by
  cases fs with
  | content s => exact ⟨d, h⟩
  | fsError code msg =>
    by_cases hc : code = "ENOENT"
    · exact ⟨freshData t2, by simp [readData, hc]⟩
    · simp [readData, hc] at h

lemma readData_again_same_checks (fs : FSResult) (p : String → Except String Json)
    (t : Nat) (d : Data) (h : readData fs p t = .ok d) (t2 : Nat) :
    ∃ d2, readData fs p t2 = .ok d2 ∧ d2.checks = d.checks := by
  cases fs with
  | content s => exact ⟨d, h, rfl⟩
  | fsError code msg =>
    by_cases hc : code = "ENOENT"
    · subst hc
      have hrd : readData (FSResult.fsError "ENOENT" msg) p t = .ok (freshData t) := by
        simp [readData]
      rw [hrd] at h
      injection h with h'
      refine ⟨freshData t2, by simp [readData], ?_⟩
      rw [← h']
      rfl
    · simp [readData, hc] at h

lemma readData_content_bad (p : String → Except String Json) (s : String) (t : Nat)
    (hbad : (∃ e, p s = .error e) ∨ ∃ j, p s = .ok j ∧ validShape j = false) :
    ∃ e, readData (.content s) p t = .error e := by
  rcases hbad with ⟨e, he⟩ | ⟨j, hj, hshape⟩
  · exact ⟨e, by simp [readData, he]⟩
  · exact ⟨"invalid data structure in data.json", by simp [readData, hj, hshape]⟩

lemma extract_no_marker (env : Env) (html : String)
    (hm : markerContent html = none) :
    extractFoundryConfig env html = .ok none := by
  unfold extractFoundryConfig
  rw [hm]

lemma extract_parse_fail (env : Env) (html cnt s e : String)
    (hm : markerContent html = some cnt)
    (hdec : env.decodeURIComponent cnt.trim = .ok s)
    (hp : env.jsonParse s = .error e) :
    extractFoundryConfig env html = .ok none := by
  simp only [extractFoundryConfig, hm, hdec, hp]

lemma extract_decode_throw (env : Env) (html cnt e : String)
    (hm : markerContent html = some cnt)
    (hdec : env.decodeURIComponent cnt.trim = .error e) :
    extractFoundryConfig env html = .error e := by
  simp only [extractFoundryConfig, hm, hdec]

/-- Every way `main` itself can end: an escaped exception with
nothing written, or exactly one written document — the loaded one,
its check log untouched before the record — carrying exactly one
freshly stamped check whose status decides the exit code. -/
lemma mainBody_cases (env : Env) (ts : Times) :
    (∃ e, mainBody env ts = ([], .threw e)) ∨
    (∃ d0 d' c, readData env.fs env.jsonParse ts.tLoad = .ok d0 ∧
      d'.checks = d0.checks ∧
      mainBody env ts = ([addCheckToData d' c],
        .exited (if c.status = CheckStatus.ok then 0 else 1)) ∧
      c.status ≠ CheckStatus.unknown_error ∧
      c.checkedAt = ts.tCheck ∧
      c.durationMs = (ts.tCheck : Int) - (ts.tStart : Int)) := by
  unfold mainBody
  cases hrd : readData env.fs env.jsonParse ts.tLoad with
  | error e => exact Or.inl ⟨e, rfl⟩
  | ok data =>
    cases hf : env.fetchResult with
    | error e =>
      refine Or.inr ⟨data, data, _, rfl, rfl, rfl, ?_, rfl, rfl⟩
      simp [createCheck]
    | ok res =>
      by_cases hok : res.ok = false
      · simp only [if_pos hok]
        refine Or.inr ⟨data, data, _, rfl, rfl, rfl, ?_, rfl, rfl⟩
        simp [createCheck]
      · simp only [if_neg hok]
        cases hx : extractFoundryConfig env res.body with
        | error e => exact Or.inl ⟨e, rfl⟩
        | ok copt =>
          by_cases hc : truthyOpt copt = false
          · simp only [if_pos hc]
            refine Or.inr ⟨data, data, _, rfl, rfl, rfl, ?_, rfl, rfl⟩
            simp [createCheck]
          · simp only [if_neg hc]
            by_cases hbn : truthyOpt (optChainMember
                ((copt.getD Json.null).getMember "environment") "buildNumber") = false
            · simp only [if_pos hbn]
              refine Or.inr ⟨data, data, _, rfl, rfl, rfl, ?_, rfl, rfl⟩
              simp [createCheck]
            · simp only [if_neg hbn]
              refine Or.inr ⟨data, { data with builds :=
                (reconcileBuilds data.builds (copt.getD Json.null) ts.tNow).1 }, _,
                rfl, rfl, rfl, ?_, rfl, rfl⟩
              simp [createCheck]

/-- The check literal constructed by the top-level catch handler
(main.ts lines 181-186). -/
def catchCheck (tCatch : Nat) (e : String) : Check :=
  { checkedAt := tCatch, status := .unknown_error, durationMs := 0,
    httpStatus := none, errorMessage := some e, buildNumber := none,
    isNewBuild := none }

lemma run_thrown_unknown (env : Env) (ts : Times) (e : String) (d2 : Data)
    (hmb : mainBody env ts = ([], .threw e))
    (h2 : readData env.fs env.jsonParse ts.tLoad2 = .ok d2) :
    fullRun env ts = ([addCheckToData d2
      { checkedAt := ts.tCatch, status := .unknown_error, durationMs := 0,
        httpStatus := none, errorMessage := some e, buildNumber := none,
        isNewBuild := none }], 1) := by
  unfold fullRun
  rw [hmb, h2]
  rfl

lemma run_parse_error (env : Env) (ts : Times) (d0 : Data) (res : FetchResponse)
    (hload : readData env.fs env.jsonParse ts.tLoad = .ok d0)
    (hf : env.fetchResult = .ok res)
    (hok : res.ok = true)
    (hx : extractFoundryConfig env res.body = .ok none) :
    fullRun env ts = ([addCheckToData d0 (createCheck ts.tStart ts.tCheck .parse_error
      (some res.status) (some "failed to extract config from HTML") none none)], 1) := by
  have hmb : mainBody env ts = ([addCheckToData d0 (createCheck ts.tStart ts.tCheck
      .parse_error (some res.status) (some "failed to extract config from HTML")
      none none)], .exited 1) := by
    unfold mainBody
    simp only [hload, hf]
    simp [hx, hok, truthyOpt]
  unfold fullRun
  rw [hmb]

/-! ### C1: every run records exactly one check -/

/-- Claim C1 (amended): provided the initial store load succeeds, a
run — whatever its terminal outcome — writes the store exactly once,
and the single written document is a loaded document with exactly
one new check prepended to the loaded check log (truncated to the
cap): the base document's checks equal the loaded `d0.checks`, and
the written check log is `(c :: d0.checks).take MAX_CHECKS`.  The
check is this run's own: a non-`unknown_error` check carries the
run's check-creation instant and the elapsed duration since the run
started, the `unknown_error` check carries the catch handler's
instant and a literal duration 0.  The exit code is 0 exactly when
the check's status is `ok` and 1 otherwise.  (When the store load
itself fails the run exits 1 with no check persisted; see the
counterexample.) -/
theorem c1_run_always_records (env : Env) (ts : Times) (d0 : Data)
    (h : readData env.fs env.jsonParse ts.tLoad = .ok d0) :
    ∃ d' c, fullRun env ts = ([addCheckToData d' c],
        if c.status = CheckStatus.ok then 0 else 1) ∧
      d'.checks = d0.checks ∧
      (addCheckToData d' c).checks = (c :: d0.checks).take MAX_CHECKS ∧
      (c.status ≠ CheckStatus.unknown_error →
        c.checkedAt = ts.tCheck ∧
        c.durationMs = (ts.tCheck : Int) - (ts.tStart : Int)) ∧
      (c.status = CheckStatus.unknown_error →
        c.checkedAt = ts.tCatch ∧ c.durationMs = 0) := by
  rcases mainBody_cases env ts with ⟨e, hmb⟩ | ⟨d0l, d', c, hrd, hch, hmb, hne, hca, hdm⟩
  · rcases readData_again_same_checks env.fs env.jsonParse ts.tLoad d0 h ts.tLoad2
      with ⟨d2, h2, hch⟩
    have hr := run_thrown_unknown env ts e d2 hmb h2
    refine ⟨d2, catchCheck ts.tCatch e, ?_, hch, ?_, ?_, ?_⟩
    · exact hr
    · rw [addCheckToData_checks, hch]
    · intro hne'
      exact absurd rfl hne'
    · intro _
      exact ⟨rfl, rfl⟩
  · rw [h] at hrd
    injection hrd with hdd
    subst hdd
    refine ⟨d', c, ?_, hch, ?_, fun _ => ⟨hca, hdm⟩, fun hu => absurd hu hne⟩
    · unfold fullRun
      rw [hmb]
    · rw [addCheckToData_checks, hch]

/-- The store file holds content that is not parseable JSON. -/
def corruptEnv : Env :=
  { fs := .content "not json"
    jsonParse := fun _ => .error "SyntaxError: Unexpected token"
    decodeURIComponent := fun s => .ok s
    fetchResult := .error "fetch failed" }

/-- Concrete clock readings for the sample runs. -/
def ts0 : Times :=
  { tStart := 100, tLoad := 101, tNow := 102, tCheck := 103, tCatch := 104, tLoad2 := 105 }

/-- Counterexample to C1 as stated: with a corrupt store file the run
ends (terminal outcome `unknown_error`, exit code 1) yet nothing is
ever written, so no check record of any status is persisted. -/
theorem c1_counterexample :
    fullRun corruptEnv ts0 = ([], 1) ∧
    mainBody corruptEnv ts0 = ([], .threw "SyntaxError: Unexpected token") :=
  ⟨rfl, rfl⟩

/-- The store file is absent and the fetch fails at transport level. -/
def missingStoreEnv : Env :=
  { fs := .fsError "ENOENT" "no such file"
    jsonParse := fun _ => .error "SyntaxError: Unexpected token"
    decodeURIComponent := fun s => .ok s
    fetchResult := .error "getaddrinfo ENOTFOUND" }

/-- Witness for the amended C1 at a concrete failing run. -/
theorem c1_witness :
    ∃ d' c, fullRun missingStoreEnv ts0 = ([addCheckToData d' c],
        if c.status = CheckStatus.ok then 0 else 1) ∧
      d'.checks = (freshData 101).checks ∧
      (addCheckToData d' c).checks = (c :: (freshData 101).checks).take MAX_CHECKS ∧
      (c.status ≠ CheckStatus.unknown_error →
        c.checkedAt = ts0.tCheck ∧
        c.durationMs = (ts0.tCheck : Int) - (ts0.tStart : Int)) ∧
      (c.status = CheckStatus.unknown_error →
        c.checkedAt = ts0.tCatch ∧ c.durationMs = 0) :=
  c1_run_always_records missingStoreEnv ts0 (freshData 101) rfl

/-! ### C9: a corrupt store is never recorded into -/

/-- Claim C9: when the store file exists but its content does not
parse, or parses to a value without the required object-with-builds
shape, the initial load throws, the top-level handler's own re-load
fails the same way, its secondary error is swallowed, and the process
exits 1 with no check written. -/
theorem c9_corrupt_store_never_records (env : Env) (ts : Times) (s : String)
    (hfs : env.fs = .content s)
    (hbad : (∃ e, env.jsonParse s = .error e) ∨
      ∃ j, env.jsonParse s = .ok j ∧ validShape j = false) :
    fullRun env ts = ([], 1) := by
  have h1 : ∃ e, readData env.fs env.jsonParse ts.tLoad = .error e := by
    rw [hfs]; exact readData_content_bad env.jsonParse s ts.tLoad hbad
  have h2 : ∃ e, readData env.fs env.jsonParse ts.tLoad2 = .error e := by
    rw [hfs]; exact readData_content_bad env.jsonParse s ts.tLoad2 hbad
  rcases h1 with ⟨e1, h1⟩
  rcases h2 with ⟨e2, h2⟩
  have hmb : mainBody env ts = ([], .threw e1) := by
    unfold mainBody; rw [h1]
  unfold fullRun
  rw [hmb, h2]

/-- Witness for C9 at a concrete corrupt store. -/
theorem c9_witness : fullRun corruptEnv ts0 = ([], 1) :=
  c9_corrupt_store_never_records corruptEnv ts0 "not json" rfl
    (Or.inl ⟨"SyntaxError: Unexpected token", rfl⟩)

/-! ### C10: durationMs of the unknown-error check -/

/-- Claim C10: the check written by the unknown-error handler always
has a `durationMs` of literally 0, whatever the wall-clock time
consumed, while a check of any other status records the elapsed time
between the run's start and the check's creation. -/
theorem c10_duration_semantics (env : Env) (ts : Times) (d : Data)
    (h : (fullRun env ts).1 = [d]) :
    ∃ c, d.checks.head? = some c ∧
      (c.status = CheckStatus.unknown_error → c.durationMs = 0) ∧
      (c.status ≠ CheckStatus.unknown_error →
        c.durationMs = (ts.tCheck : Int) - (ts.tStart : Int)) := by
  rcases mainBody_cases env ts with ⟨e, hmb⟩ | ⟨d0l, d', c, hrd, hch, hmb, hne, hca, hdm⟩
  · cases h2 : readData env.fs env.jsonParse ts.tLoad2 with
    | ok d2 =>
      have hr := run_thrown_unknown env ts e d2 hmb h2
      rw [hr] at h
      simp only [List.cons.injEq, and_true] at h
      refine ⟨catchCheck ts.tCatch e, ?_, fun _ => rfl, fun hh => absurd rfl hh⟩
      rw [← h]
      exact addCheckToData_head d2 (catchCheck ts.tCatch e)
    | error e2 =>
      have hr : fullRun env ts = ([], 1) := by
        unfold fullRun; rw [hmb, h2]
      rw [hr] at h
      simp at h
  · have hr : fullRun env ts = ([addCheckToData d' c],
        if c.status = CheckStatus.ok then 0 else 1) := by
      unfold fullRun; rw [hmb]
    rw [hr] at h
    simp only [List.cons.injEq, and_true] at h
    refine ⟨c, ?_, fun hh => absurd hh hne, fun _ => hdm⟩
    rw [← h]
    exact addCheckToData_head d' c

/-- The document written by the sample failing run. -/
def sampleWrittenDoc : Data :=
  addCheckToData (freshData 101) (createCheck 100 103 CheckStatus.network_error
    none (some "getaddrinfo ENOTFOUND") none none)

/-- Witness for C10 at a concrete run. -/
theorem c10_witness :
    ∃ c, sampleWrittenDoc.checks.head? = some c ∧
      (c.status = CheckStatus.unknown_error → c.durationMs = 0) ∧
      (c.status ≠ CheckStatus.unknown_error →
        c.durationMs = ((103 : Nat) : Int) - ((100 : Nat) : Int)) :=
  c10_duration_semantics missingStoreEnv ts0 sampleWrittenDoc rfl

/-! ### C2: malformed marker content -/

/-- Claim C2 (amended): for a fetched page whose marker block is
present, content that percent-decodes but is not valid JSON ends the
run with a recorded `parse_error` check; content that is not
percent-decodable instead makes the decode call throw, and the run
ends through the top-level handler with a recorded `unknown_error`
check — in both cases with exit code 1 and no unhandled exception
escaping the process. -/
theorem c2_malformed_marker (env : Env) (ts : Times) (d0 : Data)
    (res : FetchResponse) (cnt : String)
    (hload : readData env.fs env.jsonParse ts.tLoad = .ok d0)
    (hf : env.fetchResult = .ok res)
    (hok : res.ok = true)
    (hm : markerContent res.body = some cnt) :
    ((∃ s e, env.decodeURIComponent cnt.trim = .ok s ∧ env.jsonParse s = .error e) →
      headStatus (fullRun env ts) = some CheckStatus.parse_error ∧
      (fullRun env ts).2 = 1) ∧
    ((∃ e, env.decodeURIComponent cnt.trim = .error e) →
      headStatus (fullRun env ts) = some CheckStatus.unknown_error ∧
      (fullRun env ts).2 = 1) := by
  constructor
  · rintro ⟨s, e, hdec, hp⟩
    have hx := extract_parse_fail env res.body cnt s e hm hdec hp
    have hr := run_parse_error env ts d0 res hload hf hok hx
    rw [hr]
    exact ⟨headStatus_single _ _ _, rfl⟩
  · rintro ⟨e, hdec⟩
    have hx := extract_decode_throw env res.body cnt e hm hdec
    have hmb : mainBody env ts = ([], .threw e) := by
      unfold mainBody
      simp only [hload, hf]
      simp [hx, hok]
    rcases readData_ok_again env.fs env.jsonParse ts.tLoad d0 hload ts.tLoad2 with ⟨d2, h2⟩
    have hr := run_thrown_unknown env ts e d2 hmb h2
    rw [hr]
    exact ⟨headStatus_single _ _ _, rfl⟩

/-- A fetched page whose marker block holds undecodable content. -/
def undecodableBody : String :=
  "<script id=\"ai-foundry-host-context\">%E0%A4%A</script>"

/-- A successful 200 fetch response with the given body. -/
def fetchOk200 (body : String) : FetchResponse :=
  { ok := true, status := 200, statusText := "OK", body := body }

/-- Environment fetching a page whose marker content cannot be
percent-decoded. -/
def undecodableEnv : Env :=
  { fs := .fsError "ENOENT" "no such file"
    jsonParse := fun _ => .error "SyntaxError: Unexpected token"
    decodeURIComponent := fun _ => .error "URIError: URI malformed"
    fetchResult := .ok (fetchOk200 undecodableBody) }

/-- Counterexample to C2 as stated: a page with the marker block
present but non-percent-decodable content ends the run with a
recorded `unknown_error` check, not a `parse_error` one — the decode
exception escapes the extractor and is only caught by the top-level
handler. -/
theorem c2_counterexample :
    markerContent undecodableBody = some "%E0%A4%A" ∧
    headStatus (fullRun undecodableEnv ts0) = some CheckStatus.unknown_error ∧
    (fullRun undecodableEnv ts0).2 = 1 := by
  refine ⟨by rfl, ?_, by rfl⟩
  rfl

/-- A fetched page whose marker block holds content that decodes but
is not JSON. -/
def badJsonBody : String :=
  "<script id=\"ai-foundry-host-context\">notjson</script>"

/-- Environment fetching a page whose decoded marker content fails to
parse as JSON. -/
def badJsonEnv : Env :=
  { fs := .fsError "ENOENT" "no such file"
    jsonParse := fun _ => .error "SyntaxError: Unexpected token"
    decodeURIComponent := fun _ => .ok "notjson"
    fetchResult := .ok (fetchOk200 badJsonBody) }

/-- Witness for the amended C2 at a concrete page with unparseable
marker JSON. -/
theorem c2_witness :
    headStatus (fullRun badJsonEnv ts0) = some CheckStatus.parse_error ∧
    (fullRun badJsonEnv ts0).2 = 1 :=
  (c2_malformed_marker badJsonEnv ts0 (freshData 101) (fetchOk200 badJsonBody)
      "notjson" rfl rfl rfl (by rfl)).1
    ⟨"notjson", "SyntaxError: Unexpected token", rfl, rfl⟩

/-! ### C3: absent marker versus malformed marker -/

/-- Claim C3 (amended): the config extraction returns the same
indistinguishable result — no config — for a page whose marker block
is absent and for a page whose marker block is present but whose
decoded content is not valid JSON, and the caller maps that shared
result to the single recorded status `parse_error` in both cases. -/
theorem c3_absent_vs_malformed :
    (∀ (env : Env) (html1 html2 cnt s e : String),
      markerContent html1 = none →
      markerContent html2 = some cnt →
      env.decodeURIComponent cnt.trim = .ok s →
      env.jsonParse s = .error e →
      extractFoundryConfig env html1 = extractFoundryConfig env html2 ∧
      extractFoundryConfig env html1 = .ok none) ∧
    (∀ (env : Env) (ts : Times) (d0 : Data) (res : FetchResponse),
      readData env.fs env.jsonParse ts.tLoad = .ok d0 →
      env.fetchResult = .ok res → res.ok = true →
      extractFoundryConfig env res.body = .ok none →
      headStatus (fullRun env ts) = some CheckStatus.parse_error ∧
      (fullRun env ts).2 = 1) := by
  constructor
  · intro env html1 html2 cnt s e h1 h2 hdec hp
    have ha := extract_no_marker env html1 h1
    have hb := extract_parse_fail env html2 cnt s e h2 hdec hp
    rw [ha, hb]
    exact ⟨rfl, rfl⟩
  · intro env ts d0 res hload hf hok hx
    have hr := run_parse_error env ts d0 res hload hf hok hx
    rw [hr]
    exact ⟨headStatus_single _ _ _, rfl⟩

/-- A fetched page without the marker block. -/
def noMarkerBody : String := "<p>hello</p>"

/-- Environment fetching a page without the marker block. -/
def noMarkerEnv : Env :=
  { fs := .fsError "ENOENT" "no such file"
    jsonParse := fun _ => .error "SyntaxError: Unexpected token"
    decodeURIComponent := fun _ => .ok "notjson"
    fetchResult := .ok (fetchOk200 noMarkerBody) }

/-- Counterexample to C3 as stated: the extraction returns the very
same result (no config) for a page without the marker block and for a
page with a malformed marker block, and both runs record the same
status `parse_error` — the two cases are not distinguishable and do
not map to different statuses. -/
theorem c3_counterexample :
    extractFoundryConfig noMarkerEnv noMarkerBody = .ok none ∧
    extractFoundryConfig badJsonEnv badJsonBody = .ok none ∧
    headStatus (fullRun noMarkerEnv ts0) = some CheckStatus.parse_error ∧
    headStatus (fullRun badJsonEnv ts0) = some CheckStatus.parse_error := by
  exact ⟨rfl, rfl, rfl, rfl⟩

/-- Witness for the amended C3 at concrete pages. -/
theorem c3_witness :
    extractFoundryConfig badJsonEnv noMarkerBody = extractFoundryConfig badJsonEnv badJsonBody ∧
    headStatus (fullRun noMarkerEnv ts0) = some CheckStatus.parse_error ∧
    (fullRun noMarkerEnv ts0).2 = 1 := by
  have h1 := (c3_absent_vs_malformed).1 badJsonEnv noMarkerBody badJsonBody
    "notjson" "notjson" "SyntaxError: Unexpected token" (by rfl) (by rfl) rfl rfl
  have h2 := (c3_absent_vs_malformed).2 noMarkerEnv ts0 (freshData 101)
    (fetchOk200 noMarkerBody) rfl rfl rfl (extract_no_marker _ _ (by rfl))
  exact ⟨h1.1, h2.1, h2.2⟩
